import Mathlib

/-!
Shallow embedding of the data/backup core of dristeeApp3.py:
the relational store (folders/images/surveys), the JSON serializer
(`serialize_db`), the restorer (`restore_db`), the slug validator
(`validate_folder_name`), the folder insert (`add_folder`), the survey
delete (`delete_survey_entry`), the repository-URL parser
(`_parse_github_repo_info`) and the remote sync client
(`commit_backup_api`).

Modelling conventions:
* SQLite rows are records; tables are lists of records in insertion order
  (the AUTOINCREMENT id column is not part of any queried data and is
  omitted).
* Python bytes objects are lists of naturals; a value is a real byte
  string when every element is < 256 (guaranteed by the bytes type in
  Python, stated as a hypothesis here).
* JSON values are an inductive type; objects model Python dicts as
  association lists with the first binding of a key authoritative.
  Numbers are restricted to integers, the only numeric form this
  application writes or reads back.
* Library calls with side effects are made explicit: the file system and
  json.loads enter restore as parameters, the three HTTP calls enter
  commit_backup_api as parameters, and streamlit message calls
  (st.info/st.warning/st.error/st.success) are collected in an output
  list of an inductive message type, one constructor per call site.
-/

namespace Dristee

/-- JSON values as handled by the json module. Objects model Python dicts
as association lists (keys distinct in every value this program builds). -/
inductive Json where
  | null : Json
  | bool (b : Bool) : Json
  | int (n : Int) : Json
  | str (s : String) : Json
  | arr (elems : List Json) : Json
  | obj (fields : List (String × Json)) : Json

/-- First binding of a key in an object body (dict lookup). -/
def jlookup : List (String × Json) → String → Option Json
  | [], _ => none
  | (k, v) :: rest, key => if k = key then some v else jlookup rest key

/-- Python subscript `d[key]`: KeyError when the key is absent, TypeError
when the value is not a dict. -/
def jget : Json → String → Except String Json
  | .obj fields, key =>
    match jlookup fields key with
    | some v => .ok v
    | none => .error "KeyError"
  | _, _ => .error "TypeError"

/-- Python `d.get(key)`: None when absent; AttributeError on a non-dict. -/
def jgetOpt : Json → String → Except String (Option Json)
  | .obj fields, key => .ok (jlookup fields key)
  | _, _ => .error "AttributeError"

/-- Characters stripped by Python str.strip() with no argument: the
Unicode whitespace set of str.isspace (Py_UNICODE_ISSPACE), which is
also the set int() maps to a space before parsing a string. -/
def isPyWs (c : Char) : Bool :=
  c = '\t' || c = '\n' || c = '\x0b' || c = '\x0c' || c = '\r' ||
  c = '\x1c' || c = '\x1d' || c = '\x1e' || c = '\x1f' || c = ' ' ||
  c = '\x85' || c = '\xa0' || c = '\u1680' ||
  (decide ('\u2000' ≤ c) && decide (c ≤ '\u200a')) ||
  c = '\u2028' || c = '\u2029' || c = '\u202f' || c = '\u205f' ||
  c = '\u3000'

/-- Python `not s.strip()`: the string has no non-whitespace content. -/
def pyAllSpace (s : String) : Bool :=
  s.toList.all isPyWs

/-- Python str.strip() on a character list. -/
def pyStripChars (l : List Char) : List Char :=
  ((l.dropWhile isPyWs).reverse.dropWhile isPyWs).reverse

/-- Start codepoints of the Unicode decimal-digit runs: each run holds
ten consecutive codepoints carrying the digit values 0 through 9. Python
int() maps every such character to its ASCII digit before parsing
(Py_UNICODE_TODECIMAL); the list is the CPython unicodedata table. -/
def decDigitStarts : List Nat :=
  [48, 1632, 1776, 1984, 2406, 2534, 2662, 2790, 2918, 3046, 3174, 3302,
   3430, 3558, 3664, 3792, 3872, 4160, 4240, 6112, 6160, 6470, 6608, 6784,
   6800, 6992, 7088, 7232, 7248, 42528, 43216, 43264, 43472, 43504, 43600,
   44016, 65296, 66720, 68912, 69734, 69872, 69942, 70096, 70384, 70736,
   70864, 71248, 71360, 71472, 71904, 72016, 72784, 73040, 73120, 92768,
   92864, 93008, 120782, 120792, 120802, 120812, 120822, 123200, 123632,
   125264, 130032]

/-- Decimal-digit value of a character as int() sees it: any Unicode
decimal digit, not only ASCII 0-9. -/
def digitVal (c : Char) : Option Nat :=
  match decDigitStarts.find?
      (fun s => decide (s ≤ c.toNat) && decide (c.toNat < s + 10)) with
  | some s => some (c.toNat - s)
  | none => none

/-- Value of the rest of a digit run after its first digit; a single
underscore is allowed between two digits (Python digit separators). -/
def digitsValAux : List Char → Nat → Option Nat
  | [], acc => some acc
  | '_' :: c :: rest, acc =>
    match digitVal c with
    | some d => digitsValAux rest (acc * 10 + d)
    | none => none
  | ['_'], _ => none
  | c :: rest, acc =>
    match digitVal c with
    | some d => digitsValAux rest (acc * 10 + d)
    | none => none

/-- Value of a non-empty digit run that must start with a digit. -/
def digitsVal : List Char → Option Nat
  | [] => none
  | c :: rest =>
    match digitVal c with
    | some d => digitsValAux rest d
    | none => none

/-- Python `int(s)` on a string: surrounding whitespace allowed, optional
sign, then decimal digits; anything else raises ValueError. -/
def pyIntOfChars (l : List Char) : Option Int :=
  match pyStripChars l with
  | '+' :: rest => (digitsVal rest).map Int.ofNat
  | '-' :: rest => (digitsVal rest).map (fun v => -(Int.ofNat v))
  | rest => (digitsVal rest).map Int.ofNat

/-- Python `int(x)` on a decoded JSON value: identity on ints, 0/1 on
bools, decimal parse on strings, TypeError/ValueError otherwise. -/
def pyInt : Json → Except String Int
  | .int n => .ok n
  | .bool b => .ok (if b then 1 else 0)
  | .str s =>
    match pyIntOfChars s.toList with
    | some v => .ok v
    | none => .error "ValueError"
  | _ => .error "TypeError"

/-- Value stored by an INSERT into a TEXT NOT NULL column when the bound
Python value is the given JSON value: strings stored as-is, numbers
converted to text by TEXT affinity, bools adapted to 0/1 first, None
rejected by NOT NULL, containers rejected by the sqlite3 driver. -/
def toSqlText : Json → Except String String
  | .str s => .ok s
  | .int n => .ok (toString n)
  | .bool b => .ok (if b then "1" else "0")
  | .null => .error "NOT NULL constraint failed"
  | .arr _ => .error "InterfaceError"
  | .obj _ => .error "InterfaceError"

/-- Value stored in a nullable TEXT column: as toSqlText but None allowed. -/
def toSqlTextOpt : Json → Except String (Option String)
  | .null => .ok none
  | .str s => .ok (some s)
  | .int n => .ok (some (toString n))
  | .bool b => .ok (some (if b then "1" else "0"))
  | .arr _ => .error "InterfaceError"
  | .obj _ => .error "InterfaceError"

/-! ## Base64 (base64.b64encode / base64.b64decode, standard alphabet) -/

/-- The standard base64 alphabet, index order. -/
def b64Alpha : List Char :=
  ['A','B','C','D','E','F','G','H','I','J','K','L','M','N','O','P',
   'Q','R','S','T','U','V','W','X','Y','Z',
   'a','b','c','d','e','f','g','h','i','j','k','l','m','n','o','p',
   'q','r','s','t','u','v','w','x','y','z',
   '0','1','2','3','4','5','6','7','8','9','+','/']

/-- Alphabet character of a sextet. -/
def b64charOf (n : Nat) : Char :=
  b64Alpha.getD n 'A'

/-- Index of a character in a list. -/
def idxOf? : List Char → Char → Option Nat
  | [], _ => none
  | c :: rest, ch => if c = ch then some 0 else (idxOf? rest ch).map (· + 1)

/-- Sextet of an alphabet character, none for anything else. -/
def sextetOf (ch : Char) : Option Nat :=
  idxOf? b64Alpha ch

/-- base64.b64encode on a byte list, producing the character stream:
each 3-byte group becomes 4 alphabet characters, a trailing 1- or 2-byte
group is padded with `=`. -/
def b64encodeList : List Nat → List Char
  | [] => []
  | [a] => [b64charOf (a / 4), b64charOf (a % 4 * 16), '=', '=']
  | [a, b] => [b64charOf (a / 4), b64charOf (a % 4 * 16 + b / 16),
               b64charOf (b % 16 * 4), '=']
  | a :: b :: c :: rest =>
    b64charOf (a / 4) :: b64charOf (a % 4 * 16 + b / 16) ::
    b64charOf (b % 16 * 4 + c / 64) :: b64charOf (c % 64) ::
    b64encodeList rest

/-- base64.b64encode(...).decode of a byte list as a string. -/
def b64encode (bs : List Nat) : String :=
  String.mk (b64encodeList bs)

/-- Bytes of a full quad of sextets. -/
def b64emit3 (s0 s1 s2 s3 : Nat) : List Nat :=
  [s0 * 4 + s1 / 16, s1 % 16 * 16 + s2 / 4, s2 % 4 * 64 + s3]

/-- Bytes of a quad ended early by padding (2 or 3 sextets seen). -/
def b64emitPartial : List Nat → List Nat
  | [s0, s1] => [s0 * 4 + s1 / 16]
  | [s0, s1, s2] => [s0 * 4 + s1 / 16, s1 % 16 * 16 + s2 / 4]
  | _ => []

/-- Decoding loop of binascii.a2b_base64 in non-strict mode, following
the CPython implementation: characters outside the alphabet are skipped;
a padding character is ignored while fewer than two sextets are pending,
and otherwise raises the pad tally (which every data character resets)
until pending sextets plus pads reach four, at which point the data ends
and the pending bytes are emitted, the rest of the input ignored; at end
of input a pending quad of one sextet is the one-more-than-a-multiple-
of-four error and an unpadded pending quad of two or three is an
incorrect-padding error. The second argument is the pending quad (at
most three sextets), the third the pad tally. -/
def b64decodeLoop : List Char → List Nat → Nat → Except String (List Nat)
  | [], quad, _ =>
    if quad.length = 0 then .ok []
    else if quad.length = 1 then .error "Invalid base64-encoded string"
    else .error "Incorrect padding"
  | ch :: rest, quad, pads =>
    if ch = '=' then
      if 2 ≤ quad.length then
        if 4 ≤ quad.length + (pads + 1) then .ok (b64emitPartial quad)
        else b64decodeLoop rest quad (pads + 1)
      else b64decodeLoop rest quad pads
    else
      match sextetOf ch with
      | none => b64decodeLoop rest quad pads
      | some v =>
        match quad with
        | [s0, s1, s2] =>
          (b64decodeLoop rest [] 0).map (fun tl => b64emit3 s0 s1 s2 v ++ tl)
        | q => b64decodeLoop rest (q ++ [v]) 0

/-- base64.b64decode on a string: a str argument is first encoded to
ASCII (ValueError on any non-ASCII character), then decoded. -/
def b64decode (s : String) : Except String (List Nat) :=
  if s.toList.any (fun c => 128 ≤ c.toNat) then .error "ValueError: non-ascii"
  else b64decodeLoop s.toList [] 0

/-! ## The relational store -/

/-- Row of the folders table (id column omitted; folder is UNIQUE NOT NULL,
age INTEGER NOT NULL, the other columns TEXT NOT NULL). -/
structure FolderRow where
  folder : String
  name : String
  age : Int
  profession : String
  category : String
deriving DecidableEq, Repr

/-- Row of the images table (name/folder TEXT NOT NULL, image_data BLOB
NOT NULL, download_allowed BOOLEAN NOT NULL DEFAULT 1, stored numerically). -/
structure ImageRow where
  name : String
  folder : String
  image_data : List Nat
  download_allowed : Int
deriving DecidableEq, Repr

/-- Row of the surveys table (folder/timestamp TEXT NOT NULL, rating
INTEGER NOT NULL, feedback TEXT nullable). -/
structure SurveyRow where
  folder : String
  rating : Int
  feedback : Option String
  timestamp : String
deriving DecidableEq, Repr

/-- The whole store: the three tables, rows in insertion order. -/
structure Store where
  folders : List FolderRow
  images : List ImageRow
  surveys : List SurveyRow
deriving DecidableEq, Repr

/-! ## User-facing messages

One constructor per streamlit message call site in the modelled code
(st.info / st.warning / st.error / st.success), carrying the dynamic
parts of the message text. The per-skipped-row st.warning calls of
restore_db are not traced individually; their counts are carried by
`successRestore`. -/
inductive StMsg where
  /-- st.info: no backup file found, starting with a fresh database. -/
  | infoNoBackup : StMsg
  /-- st.warning: backup file exists but is empty. -/
  | warnBackupFileEmpty : StMsg
  /-- st.error: backup file is not valid JSON, with the parse error detail. -/
  | errBackupNotValidJson (detail : String) : StMsg
  /-- st.error: backup JSON root must be an object/dict, aborting. -/
  | errRootNotObject : StMsg
  /-- st.error: backup missing required key, aborting. -/
  | errMissingKey (key : String) : StMsg
  /-- st.error: backup key must be a list, aborting. -/
  | errKeyNotList (key : String) : StMsg
  /-- st.success: restore complete, with skipped counts per collection. -/
  | successRestore (skippedFolders skippedImages skippedSurveys : Nat) : StMsg
  /-- st.error: folder name must be 3-20 characters, lowercase
  alphanumeric or underscores. -/
  | errFolderNameInvalid : StMsg
  /-- st.error: folder already exists (IntegrityError branch). -/
  | errFolderExists (folder : String) : StMsg
  /-- st.error: error adding folder (generic exception branch). -/
  | errAddFolderOther (detail : String) : StMsg
  /-- st.error: GITHUB_TOKEN is not set. -/
  | errTokenNotSet : StMsg
  /-- st.error: GITHUB_TOKEN is invalid, must start with ghp_ or github_pat_. -/
  | errTokenBadStart : StMsg
  /-- st.error: REPO_URL is not set. -/
  | errRepoUrlNotSet : StMsg
  /-- st.warning: the local backup file does not exist. -/
  | warnBackupFileMissing : StMsg
  /-- st.error: invalid REPO_URL, with the configured value. -/
  | errInvalidRepoUrl (url : String) : StMsg
  /-- st.warning: db_backup.json is empty, nothing committed. -/
  | warnBackupEmptyCommit : StMsg
  /-- st.error: authentication failed 401, invalid or expired token. -/
  | errAuthUnauthorized : StMsg
  /-- st.error: authentication failed 403, missing permission or rate limit. -/
  | errAuthForbidden : StMsg
  /-- st.error: the extra rate-limit hint printed alongside a 403. -/
  | errRateLimitHint : StMsg
  /-- st.error: authentication failed with another status. -/
  | errAuthOther (status : Nat) (reason : String) : StMsg
  /-- st.info: authenticated as the given GitHub login. -/
  | infoAuthenticated (login : Option String) : StMsg
  /-- st.info: the file does not exist in the repository, creating new file. -/
  | infoCreatingNewFile : StMsg
  /-- st.error: failed to check the existing file, with status and reason. -/
  | errCheckFailed (status : Nat) (reason : String) : StMsg
  /-- st.success: committed, with the resulting commit sha. -/
  | successCommitted (commitSha : Option String) : StMsg
  /-- st.error: failed to commit, with status and reason. -/
  | errCommitFailed (status : Nat) (reason : String) : StMsg
deriving DecidableEq, Repr

/-! ## Validator -/

/-- Membership in the regex character class `[a-z0-9_]`. -/
def isSlugChar (c : Char) : Bool :=
  (decide ('a' ≤ c) && decide (c ≤ 'z')) ||
  (decide ('0' ≤ c) && decide (c ≤ '9')) ||
  decide (c = '_')

/-- The regex anchor `$` (no MULTILINE): it matches at the end of the
string, or just before a newline at the end of the string. The argument
is the remaining input at the anchor. -/
def dollarAt : List Char → Bool
  | [] => true
  | [c] => decide (c = '\n')
  | _ => false

/-- Matcher for the quantified class `[a-z0-9_]{3,20}` followed by `$`,
with the counting and backtracking of the regex engine: at each point,
with n class characters already consumed, the match succeeds if n is at
least 3 and `$` holds here, or if n is below 20, the next character is in
the class, and the rest matches with n+1. -/
def slugQuant : List Char → Nat → Bool
  | [], n => decide (3 ≤ n)
  | c :: rs, n =>
    (decide (3 ≤ n) && dollarAt (c :: rs)) ||
    (decide (n < 20) && isSlugChar c && slugQuant rs (n + 1))

/-- validate_folder_name: `bool(re.match(r"^[a-z0-9_]{3,20}$", folder))`.
re.match anchors at the start of the string, so the whole match is the
class quantifier run from position 0 followed by the `$` anchor. -/
def validate_folder_name (folder : String) : Bool :=
  slugQuant folder.toList 0

/-! ## Store operations -/

/-- add_folder: validates the slug, then inserts; a duplicate slug raises
sqlite3.IntegrityError (folders.folder is UNIQUE), caught and reported.
Returns the store, the boolean result, and the messages emitted. -/
def add_folder (db : Store) (folder name : String) (age : Int)
    (profession category : String) : Store × Bool × List StMsg :=
  if !validate_folder_name folder then
    (db, false, [.errFolderNameInvalid])
  else if db.folders.any (fun r => r.folder = folder) then
    (db, false, [.errFolderExists folder])
  else
    ({ db with folders := db.folders ++ [⟨folder, name, age, profession, category⟩] },
     true, [])

/-- delete_survey_entry: `DELETE FROM surveys WHERE folder = ? AND timestamp = ?`. -/
def delete_survey_entry (db : Store) (folder timestamp : String) : Store :=
  { db with
    surveys := db.surveys.filter
      (fun r => !(r.folder = folder && r.timestamp = timestamp)) }

/-! ## Serializer -/

/-- Snapshot object of one folders row. -/
def serFolder (r : FolderRow) : Json :=
  .obj [("folder", .str r.folder), ("name", .str r.name), ("age", .int r.age),
        ("profession", .str r.profession), ("category", .str r.category)]

/-- Snapshot object of one images row: the blob is base64-encoded text. -/
def serImage (r : ImageRow) : Json :=
  .obj [("name", .str r.name), ("folder", .str r.folder),
        ("image_data", .str (b64encode r.image_data)),
        ("download_allowed", .int r.download_allowed)]

/-- Snapshot value of a nullable text column. -/
def jsonOfOptStr : Option String → Json
  | none => .null
  | some s => .str s

/-- Snapshot object of one surveys row. -/
def serSurvey (r : SurveyRow) : Json :=
  .obj [("folder", .str r.folder), ("rating", .int r.rating),
        ("feedback", jsonOfOptStr r.feedback), ("timestamp", .str r.timestamp)]

/-- serialize_db: the whole store as one JSON object with the three
collections in table order. -/
def serialize_db (db : Store) : Json :=
  .obj [("folders", .arr (db.folders.map serFolder)),
        ("images", .arr (db.images.map serImage)),
        ("surveys", .arr (db.surveys.map serSurvey))]

/-! ## Restorer -/

/-- Body of one iteration of the folders loop of restore_db: read the
five fields (KeyError aborts the row), convert age with int(), then bind
the values into the INSERT (TEXT affinity conversion; None violates
NOT NULL). Any error makes the row malformed. -/
def parseFolderRow (j : Json) : Except String FolderRow := do
  let folderV ← jget j "folder"
  let nameV ← jget j "name"
  let age ← pyInt (← jget j "age")
  let professionV ← jget j "profession"
  let categoryV ← jget j "category"
  let folder ← toSqlText folderV
  let name ← toSqlText nameV
  let profession ← toSqlText professionV
  let category ← toSqlText categoryV
  pure ⟨folder, name, age, profession, category⟩

/-- Body of one iteration of the images loop of restore_db: name and
folder by subscript, image_data via .get and required to be a string
with non-whitespace content, then base64-decoded; download_allowed via
.get with default 1, converted with int(). -/
def parseImageRow (j : Json) : Except String ImageRow := do
  let nameV ← jget j "name"
  let folderV ← jget j "folder"
  let imgB64 ← jgetOpt j "image_data"
  let s ← match imgB64 with
    | some (.str s) =>
      if pyAllSpace s then Except.error "image_data is missing or not a base64 string"
      else Except.ok s
    | _ => Except.error "image_data is missing or not a base64 string"
  let bytes ← b64decode s
  let daV ← jgetOpt j "download_allowed"
  let download_allowed ← pyInt (daV.getD (.int 1))
  let name ← toSqlText nameV
  let folder ← toSqlText folderV
  pure ⟨name, folder, bytes, download_allowed⟩

/-- Body of one iteration of the surveys loop of restore_db: folder,
rating (int()), optional feedback via .get, timestamp. -/
def parseSurveyRow (j : Json) : Except String SurveyRow := do
  let folderV ← jget j "folder"
  let rating ← pyInt (← jget j "rating")
  let feedbackV ← jgetOpt j "feedback"
  let timestampV ← jget j "timestamp"
  let folder ← toSqlText folderV
  let feedback ← toSqlTextOpt (feedbackV.getD .null)
  let timestamp ← toSqlText timestampV
  pure ⟨folder, rating, feedback, timestamp⟩

/-- The folders loop of restore_db: each record is parsed and inserted;
a parse failure or a UNIQUE violation on the folder slug (against the
rows already inserted into the freshly recreated table) skips the row
and bumps the skipped counter. -/
def insertFolders : List Json → List FolderRow → Nat → List FolderRow × Nat
  | [], acc, k => (acc, k)
  | j :: rest, acc, k =>
    match parseFolderRow j with
    | .error _ => insertFolders rest acc (k + 1)
    | .ok row =>
      if acc.any (fun r => r.folder = row.folder) then
        insertFolders rest acc (k + 1)
      else
        insertFolders rest (acc ++ [row]) k

/-- The images loop of restore_db: no cross-row constraint, so a row is
inserted exactly when it parses. -/
def insertImages : List Json → List ImageRow → Nat → List ImageRow × Nat
  | [], acc, k => (acc, k)
  | j :: rest, acc, k =>
    match parseImageRow j with
    | .error _ => insertImages rest acc (k + 1)
    | .ok row => insertImages rest (acc ++ [row]) k

/-- The surveys loop of restore_db. -/
def insertSurveys : List Json → List SurveyRow → Nat → List SurveyRow × Nat
  | [], acc, k => (acc, k)
  | j :: rest, acc, k =>
    match parseSurveyRow j with
    | .error _ => insertSurveys rest acc (k + 1)
    | .ok row => insertSurveys rest (acc ++ [row]) k

/-- What reading BACKUP_PATH found: no file, or a file with raw content. -/
inductive FileRead where
  | absent : FileRead
  | found (raw : String) : FileRead
deriving DecidableEq, Repr

/-- Shape check of one required key, in the order of the source loop:
first missing-key, then not-a-list. -/
def getListKey (fields : List (String × Json)) (key : String) :
    Except StMsg (List Json) :=
  match jlookup fields key with
  | none => .error (.errMissingKey key)
  | some (.arr xs) => .ok xs
  | some _ => .error (.errKeyNotList key)

/-- restore_db: dispatch on the file (absent / empty / malformed JSON /
wrong shape / valid shape), then drop and recreate the three tables and
run the three row loops. `parseJson` stands for json.loads on the raw
text. Returns the store after the call and the messages emitted. -/
def restore_db (file : FileRead) (parseJson : String → Except String Json)
    (db : Store) : Store × List StMsg :=
  match file with
  | .absent => (db, [.infoNoBackup])
  | .found raw =>
    if pyAllSpace raw then (db, [.warnBackupFileEmpty])
    else
      match parseJson raw with
      | .error e => (db, [.errBackupNotValidJson e])
      | .ok (.obj fields) =>
        match getListKey fields "folders" with
        | .error m => (db, [m])
        | .ok fs =>
          match getListKey fields "images" with
          | .error m => (db, [m])
          | .ok is =>
            match getListKey fields "surveys" with
            | .error m => (db, [m])
            | .ok ss =>
              let (fRows, fSkip) := insertFolders fs [] 0
              let (iRows, iSkip) := insertImages is [] 0
              let (sRows, sSkip) := insertSurveys ss [] 0
              (⟨fRows, iRows, sRows⟩, [.successRestore fSkip iSkip sSkip])
      | .ok _ => (db, [.errRootNotObject])

/-! ## Repository URL parsing (_parse_github_repo_info)

The two re.search patterns are compiled by hand. In both, every
character class is immediately followed by a literal character excluded
from the class, so greedy matching of the host and owner groups is
forced to the maximal run; only the lazy repo group
`([^/]+?)(?:\.git)?$` needs explicit backtracking. `$` has the same
end-or-before-final-newline semantics as in the validator. -/

/-- Does the list start with the given literal characters, returning the
rest. -/
def dropLit : List Char → List Char → Option (List Char)
  | [], l => some l
  | _ :: _, [] => none
  | p :: ps, c :: cs => if p = c then dropLit ps cs else none

/-- Tail of the repo group: with the repo characters fixed, the rest must
be matched by `(?:\.git)?$`, the optional suffix tried first (greedy). -/
def gitDollar (rest : List Char) : Bool :=
  (match dropLit ['.', 'g', 'i', 't'] rest with
   | some r => dollarAt r
   | none => false) ||
  dollarAt rest

/-- The lazy group `([^/]+?)` followed by `(?:\.git)?$`: shortest
non-empty slash-free prefix whose remainder satisfies gitDollar. The
accumulator holds the characters taken so far, reversed. -/
def repoLazy : List Char → List Char → Option (List Char)
  | _, [] => none
  | acc, c :: rs =>
    if c = '/' then none
    else if gitDollar rs then some (c :: acc).reverse
    else repoLazy (c :: acc) rs

/-- Anchored attempt of `https?://[^/]+/([^/]+)/([^/]+?)(?:\.git)?$` at
the start of the list. -/
def matchHttpAt (l : List Char) : Option (String × String) := do
  let l ← dropLit ['h', 't', 't', 'p'] l
  let l ←
    match l with
    | 's' :: rest =>
      match dropLit [':', '/', '/'] rest with
      | some r => some r
      | none => dropLit [':', '/', '/'] l
    | _ => dropLit [':', '/', '/'] l
  let host := l.takeWhile (fun c => !(c = '/'))
  if host.isEmpty then none
  else
    let afterHost := l.drop host.length
    let afterHost ← dropLit ['/'] afterHost
    let owner := afterHost.takeWhile (fun c => !(c = '/'))
    if owner.isEmpty then none
    else
      let afterOwner := afterHost.drop owner.length
      let afterOwner ← dropLit ['/'] afterOwner
      let repo ← repoLazy [] afterOwner
      some (String.mk owner, String.mk repo)

/-- Anchored attempt of `git@[^:]+:([^/]+)/([^/]+?)(?:\.git)?$` at the
start of the list. -/
def matchSshAt (l : List Char) : Option (String × String) := do
  let l ← dropLit ['g', 'i', 't', '@'] l
  let host := l.takeWhile (fun c => !(c = ':'))
  if host.isEmpty then none
  else
    let afterHost := l.drop host.length
    let afterHost ← dropLit [':'] afterHost
    let owner := afterHost.takeWhile (fun c => !(c = '/'))
    if owner.isEmpty then none
    else
      let afterOwner := afterHost.drop owner.length
      let afterOwner ← dropLit ['/'] afterOwner
      let repo ← repoLazy [] afterOwner
      some (String.mk owner, String.mk repo)

/-- re.search: try the anchored match at every position, leftmost first. -/
def searchAll (attempt : List Char → Option (String × String)) :
    List Char → Option (String × String)
  | [] => attempt []
  | l@(_ :: rest) =>
    match attempt l with
    | some r => some r
    | none => searchAll attempt rest

/-- Python `s.replace(".git", "")`: remove every occurrence, scanning
left to right without overlap. -/
def removeDotGit : List Char → List Char
  | '.' :: 'g' :: 'i' :: 't' :: rest => removeDotGit rest
  | c :: rest => c :: removeDotGit rest
  | [] => []

/-- Python `s.split(sep)` for a one-character separator: splits at every
occurrence, keeping empty pieces. -/
def splitOnChar (sep : Char) (l : List Char) : List (List Char) :=
  match l with
  | [] => [[]]
  | c :: rest =>
    let r := splitOnChar sep rest
    if c = sep then [] :: r
    else
      match r with
      | [] => [[c]]
      | piece :: more => (c :: piece) :: more

/-- _parse_github_repo_info: try the https form, then the ssh form, then
fall back to `owner/repo` after stripping whitespace (with `.git`
removed from the repo part). The Python function returns a pair of
possibly-empty strings or (None, None); callers only test truthiness of
the components, so the model returns none exactly for (None, None). -/
def _parse_github_repo_info (repo_url : String) : Option (String × String) :=
  if repo_url.isEmpty then none
  else
    match searchAll matchHttpAt repo_url.toList with
    | some p => some p
    | none =>
      match searchAll matchSshAt repo_url.toList with
      | some p => some p
      | none =>
        match splitOnChar '/' (pyStripChars repo_url.toList) with
        | [a, b] => some (String.mk a, String.mk (removeDotGit b))
        | _ => none

/-! ## Remote sync client (commit_backup_api) -/

/-- The configuration and file-system state commit_backup_api reads:
GITHUB_TOKEN (None when the variable is unset), REPO_URL (its os.getenv
call has a non-empty default, but .env may bind it to the empty string),
and the content of BACKUP_PATH when that file exists. -/
structure SyncEnv where
  github_token : Option String
  repo_url : String
  backup_file : Option String
deriving DecidableEq, Repr

/-- An HTTP response as the code observes it: status code, reason
phrase, and the JSON fields it extracts (sha on the contents read,
login on the identity probe, nested commit sha on the write). -/
structure HttpResp where
  status : Nat
  reason : String
  sha : Option String
  login : Option String
  commitSha : Option String
deriving DecidableEq, Repr

/-- One network request issued by commit_backup_api, in order: the
identity probe, the contents read, and the contents write carrying the
optional prior-revision sha included in its body. -/
inductive NetCall where
  | getUser : NetCall
  | getContents : NetCall
  | putContents (sha : Option String) : NetCall
deriving DecidableEq, Repr

/-- Result of a push: the messages shown to the user and the network
requests issued, each in order. -/
structure SyncResult where
  msgs : List StMsg
  calls : List NetCall
deriving DecidableEq, Repr

/-- Python truthiness of the token: None or the empty string. -/
def tokenFalsy : Option String → Bool
  | none => true
  | some s => s.isEmpty

/-- GITHUB_TOKEN.startswith(("ghp_", "github_pat_")). -/
def tokenStartOk (s : String) : Bool :=
  (dropLit ['g', 'h', 'p', '_'] s.toList).isSome ||
  (dropLit ['g', 'i', 't', 'h', 'u', 'b', '_', 'p', 'a', 't', '_'] s.toList).isSome

/-- Truthiness test `not owner or not repo` applied to the parse result. -/
def repoInfoFalsy : Option (String × String) → Bool
  | none => true
  | some (o, r) => o.isEmpty || r.isEmpty

/-- The sha put into the write payload: the code runs
`sha = response.json().get("sha")` and then adds it only `if sha:`,
so a missing or empty sha field leaves the payload without one. -/
def shaPayloadOf (r : HttpResp) : Option String :=
  match r.sha with
  | none => none
  | some s => if s.isEmpty then none else some s

/-- The contents write and its reporting: success on 200/201, otherwise
an error naming status and reason, with the extra rate-limit hint on 403. -/
def doPut (pre : List StMsg) (calls : List NetCall) (shaPayload : Option String)
    (putResp : Option String → HttpResp) : SyncResult :=
  if (putResp shaPayload).status = 200 || (putResp shaPayload).status = 201 then
    ⟨pre ++ [.successCommitted (putResp shaPayload).commitSha],
     calls ++ [.putContents shaPayload]⟩
  else if (putResp shaPayload).status = 403 then
    ⟨pre ++ [.errCommitFailed (putResp shaPayload).status
        (putResp shaPayload).reason, .errRateLimitHint],
     calls ++ [.putContents shaPayload]⟩
  else
    ⟨pre ++ [.errCommitFailed (putResp shaPayload).status
        (putResp shaPayload).reason],
     calls ++ [.putContents shaPayload]⟩

/-- commit_backup_api: the six local precondition checks in source
order (token set, token format, REPO_URL set, backup file exists,
REPO_URL parseable, backup content non-empty), then the identity probe,
the revision-pointer read (404 meaning first-time creation), and the
compare-and-swap write. The three HTTP responses enter as parameters;
the write response may depend on the sha included in the payload. -/
def commit_backup_api (env : SyncEnv) (userResp contentsResp : HttpResp)
    (putResp : Option String → HttpResp) : SyncResult :=
  if tokenFalsy env.github_token then ⟨[.errTokenNotSet], []⟩
  else if !tokenStartOk (env.github_token.getD "") then ⟨[.errTokenBadStart], []⟩
  else if env.repo_url.isEmpty then ⟨[.errRepoUrlNotSet], []⟩
  else
    match env.backup_file with
    | none => ⟨[.warnBackupFileMissing], []⟩
    | some content =>
      if repoInfoFalsy (_parse_github_repo_info env.repo_url) then
        ⟨[.errInvalidRepoUrl env.repo_url], []⟩
      else if pyAllSpace content then ⟨[.warnBackupEmptyCommit], []⟩
      else if !(userResp.status = 200) then
        if userResp.status = 401 then ⟨[.errAuthUnauthorized], [.getUser]⟩
        else if userResp.status = 403 then
          ⟨[.errAuthForbidden, .errRateLimitHint], [.getUser]⟩
        else ⟨[.errAuthOther userResp.status userResp.reason], [.getUser]⟩
      else
        if contentsResp.status = 200 then
          doPut [StMsg.infoAuthenticated userResp.login]
            [NetCall.getUser, NetCall.getContents]
            (shaPayloadOf contentsResp) putResp
        else if contentsResp.status = 404 then
          doPut ([StMsg.infoAuthenticated userResp.login] ++
              [.infoCreatingNewFile])
            [NetCall.getUser, NetCall.getContents] none putResp
        else
          ⟨[StMsg.infoAuthenticated userResp.login] ++
            [.errCheckFailed contentsResp.status contentsResp.reason],
           [NetCall.getUser, NetCall.getContents]⟩

/-! ## Derived notions used by the theorem statements -/

/-- Boolean success of an Except computation. -/
def exOk : Except String α → Bool
  | .ok _ => true
  | .error _ => false

/-- Result of an Except computation as an option. -/
def exGet : Except String α → Option α
  | .ok a => some a
  | .error _ => none

/-- First-occurrence deduplication of folder rows by slug, given the set
of slugs already taken. -/
def dedupBySlug : List FolderRow → List String → List FolderRow
  | [], _ => []
  | r :: rest, seen =>
    if r.folder ∈ seen then dedupBySlug rest seen
    else r :: dedupBySlug rest (r.folder :: seen)

/-- The folder rows that survive a restore of the given records: the
parseable rows, first occurrence of each slug. -/
def keptFolders (fs : List Json) : List FolderRow :=
  dedupBySlug (fs.filterMap (fun j => exGet (parseFolderRow j))) []

/-- A store whose rows can actually live in the SQLite schema: folder
slugs are unique (folders.folder is UNIQUE), and image blobs are real
byte strings. -/
def Store.WellFormed (db : Store) : Prop :=
  (db.folders.map FolderRow.folder).Nodup ∧
  ∀ r ∈ db.images, ∀ x ∈ r.image_data, x < 256

/-- A store all of whose image blobs are non-empty. -/
def Store.BlobsNonEmpty (db : Store) : Prop :=
  ∀ r ∈ db.images, r.image_data ≠ []

/-- The quantified core of the slug regex: 3 to 20 characters, all drawn
from `[a-z0-9_]`. -/
def SlugCore (l : List Char) : Prop :=
  3 ≤ l.length ∧ l.length ≤ 20 ∧ ∀ c ∈ l, isSlugChar c = true

/-- Number of content-write requests in a call trace. -/
def countPut (calls : List NetCall) : Nat :=
  (calls.filter (fun c => match c with | .putContents _ => true | _ => false)).length

/-! ## Base64 lemmas -/

theorem sextetOf_b64charOf : ∀ n, n < 64 → sextetOf (b64charOf n) = some n := by
  decide

theorem b64charOf_ne_pad : ∀ n, n < 64 → b64charOf n ≠ '=' := by
  decide

theorem b64charOf_ascii : ∀ n, n < 64 → (b64charOf n).toNat < 128 := by
  decide

theorem b64charOf_not_ws : ∀ n, n < 64 → isPyWs (b64charOf n) = false := by
  decide

/-- Decoding inverts encoding on byte strings. -/
theorem b64decodeLoop_encode (bs : List Nat) (h : ∀ x ∈ bs, x < 256) :
    b64decodeLoop (b64encodeList bs) [] 0 = Except.ok bs := by
  match bs with
  | [] => rfl
  | [a] =>
    have ha : a < 256 := h a (by simp)
    have e0 := sextetOf_b64charOf (a / 4) (by omega)
    have n0 := b64charOf_ne_pad (a / 4) (by omega)
    have e1 := sextetOf_b64charOf (a % 4 * 16) (by omega)
    have n1 := b64charOf_ne_pad (a % 4 * 16) (by omega)
    simp [b64encodeList, b64decodeLoop, e0, n0, e1, n1, b64emitPartial]
    omega
  | [a, b] =>
    have ha : a < 256 := h a (by simp)
    have hb : b < 256 := h b (by simp)
    have e0 := sextetOf_b64charOf (a / 4) (by omega)
    have n0 := b64charOf_ne_pad (a / 4) (by omega)
    have e1 := sextetOf_b64charOf (a % 4 * 16 + b / 16) (by omega)
    have n1 := b64charOf_ne_pad (a % 4 * 16 + b / 16) (by omega)
    have e2 := sextetOf_b64charOf (b % 16 * 4) (by omega)
    have n2 := b64charOf_ne_pad (b % 16 * 4) (by omega)
    simp [b64encodeList, b64decodeLoop, e0, n0, e1, n1, e2, n2, b64emitPartial]
    omega
  | a :: b :: c :: rest =>
    have ha : a < 256 := h a (by simp)
    have hb : b < 256 := h b (by simp)
    have hc : c < 256 := h c (by simp)
    have ih := b64decodeLoop_encode rest (fun x hx => h x (by simp [hx]))
    have e0 := sextetOf_b64charOf (a / 4) (by omega)
    have n0 := b64charOf_ne_pad (a / 4) (by omega)
    have e1 := sextetOf_b64charOf (a % 4 * 16 + b / 16) (by omega)
    have n1 := b64charOf_ne_pad (a % 4 * 16 + b / 16) (by omega)
    have e2 := sextetOf_b64charOf (b % 16 * 4 + c / 64) (by omega)
    have n2 := b64charOf_ne_pad (b % 16 * 4 + c / 64) (by omega)
    have e3 := sextetOf_b64charOf (c % 64) (by omega)
    have n3 := b64charOf_ne_pad (c % 64) (by omega)
    simp [b64encodeList, b64decodeLoop, e0, n0, e1, n1, e2, n2, e3, n3, ih,
      b64emit3, Except.map]
    omega

/-- Every character the encoder emits is ASCII. -/
theorem b64encodeList_ascii (bs : List Nat) (h : ∀ x ∈ bs, x < 256) :
    ∀ ch ∈ b64encodeList bs, ch.toNat < 128 := by
  match bs with
  | [] => simp [b64encodeList]
  | [a] =>
    have ha : a < 256 := h a (by simp)
    simp only [b64encodeList, List.mem_cons, List.not_mem_nil, or_false]
    rintro ch (rfl | rfl | rfl | rfl)
    · exact b64charOf_ascii _ (by omega)
    · exact b64charOf_ascii _ (by omega)
    · decide
    · decide
  | [a, b] =>
    have ha : a < 256 := h a (by simp)
    have hb : b < 256 := h b (by simp)
    simp only [b64encodeList, List.mem_cons, List.not_mem_nil, or_false]
    rintro ch (rfl | rfl | rfl | rfl)
    · exact b64charOf_ascii _ (by omega)
    · exact b64charOf_ascii _ (by omega)
    · exact b64charOf_ascii _ (by omega)
    · decide
  | a :: b :: c :: rest =>
    have ha : a < 256 := h a (by simp)
    have hb : b < 256 := h b (by simp)
    have hc : c < 256 := h c (by simp)
    have ih := b64encodeList_ascii rest (fun x hx => h x (by simp [hx]))
    simp only [b64encodeList, List.mem_cons]
    rintro ch (rfl | rfl | rfl | rfl | hm)
    · exact b64charOf_ascii _ (by omega)
    · exact b64charOf_ascii _ (by omega)
    · exact b64charOf_ascii _ (by omega)
    · exact b64charOf_ascii _ (by omega)
    · exact ih ch hm

/-- On a non-empty byte string the encoded text has a non-whitespace
first character, so the restore check `not img_b64.strip()` passes. -/
theorem b64encode_not_all_space (bs : List Nat) (h : ∀ x ∈ bs, x < 256)
    (hne : bs ≠ []) : pyAllSpace (b64encode bs) = false := by
  match bs with
  | [] => exact absurd rfl hne
  | [a] =>
    have ha : a < 256 := h a (by simp)
    have hw := b64charOf_not_ws (a / 4) (by omega)
    simp [b64encode, b64encodeList, pyAllSpace, hw]
  | [a, b] =>
    have ha : a < 256 := h a (by simp)
    have hw := b64charOf_not_ws (a / 4) (by omega)
    simp [b64encode, b64encodeList, pyAllSpace, hw]
  | a :: b :: c :: rest =>
    have ha : a < 256 := h a (by simp)
    have hw := b64charOf_not_ws (a / 4) (by omega)
    simp [b64encode, b64encodeList, pyAllSpace, hw]

/-- base64.b64decode inverts base64.b64encode on byte strings. -/
theorem b64decode_b64encode (bs : List Nat) (h : ∀ x ∈ bs, x < 256) :
    b64decode (b64encode bs) = Except.ok bs := by
  have hascii : ((b64encodeList bs).any fun c => 128 ≤ c.toNat) = false := by
    rw [List.any_eq_false]
    intro ch hch
    have := b64encodeList_ascii bs h ch hch
    simp
    omega
  simp [b64decode, b64encode, hascii]
  exact b64decodeLoop_encode bs h

/-! ## Row and loop lemmas -/

theorem exGet_ok {α : Type} (a : α) :
    exGet (Except.ok a : Except String α) = some a := rfl

theorem exOk_ok {α : Type} (a : α) :
    exOk (Except.ok a : Except String α) = true := rfl

theorem parseFolderRow_serFolder (r : FolderRow) :
    parseFolderRow (serFolder r) = Except.ok r := rfl

theorem parseSurveyRow_serSurvey (r : SurveyRow) :
    parseSurveyRow (serSurvey r) = Except.ok r := by
  cases r with
  | mk folder rating feedback timestamp => cases feedback <;> rfl

theorem parseImageRow_serImage (r : ImageRow)
    (h : ∀ x ∈ r.image_data, x < 256) (hne : r.image_data ≠ []) :
    parseImageRow (serImage r) = Except.ok r := by
  have hsp := b64encode_not_all_space r.image_data h hne
  have hdec := b64decode_b64encode r.image_data h
  cases r with
  | mk name folder image_data download_allowed =>
    simp only at hsp hdec
    simp [parseImageRow, serImage, jget, jgetOpt, jlookup, hsp, hdec, bind,
      Except.bind, pyInt, toSqlText, Option.getD, pure, Except.pure]

theorem dedupBySlug_congr (l : List FolderRow) :
    ∀ (s1 s2 : List String), (∀ x, x ∈ s1 ↔ x ∈ s2) →
      dedupBySlug l s1 = dedupBySlug l s2 := by
  induction l with
  | nil => intro s1 s2 _; rfl
  | cons r rest ih =>
    intro s1 s2 hmem
    simp only [dedupBySlug]
    by_cases hr : r.folder ∈ s1
    · rw [if_pos hr, if_pos ((hmem r.folder).1 hr)]
      exact ih s1 s2 hmem
    · rw [if_neg hr, if_neg (fun hc => hr ((hmem r.folder).2 hc))]
      rw [ih (r.folder :: s1) (r.folder :: s2) (by intro x; simp [hmem x])]

/-- The folders loop, characterized: the inserted rows are the parseable
records deduplicated by slug against the rows already present, and the
skipped counter accounts for every record not inserted. -/
theorem insertFolders_spec : ∀ (l : List Json) (acc : List FolderRow) (k : Nat),
    (dedupBySlug (l.filterMap (fun j => exGet (parseFolderRow j)))
        (acc.map FolderRow.folder)).length ≤ l.length ∧
    insertFolders l acc k =
      (acc ++ dedupBySlug (l.filterMap (fun j => exGet (parseFolderRow j)))
          (acc.map FolderRow.folder),
       k + (l.length -
         (dedupBySlug (l.filterMap (fun j => exGet (parseFolderRow j)))
             (acc.map FolderRow.folder)).length)) := by
  intro l
  induction l with
  | nil => intro acc k; simp [insertFolders, dedupBySlug]
  | cons j rest ih =>
    intro acc k
    cases hp : parseFolderRow j with
    | error e =>
      have hfm : (j :: rest).filterMap (fun j => exGet (parseFolderRow j)) =
          rest.filterMap (fun j => exGet (parseFolderRow j)) := by
        simp [List.filterMap_cons, hp, exGet]
      obtain ⟨ihlen, iheq⟩ := ih acc (k + 1)
      refine ⟨by rw [hfm]; simp only [List.length_cons]; omega, ?_⟩
      have hstep : insertFolders (j :: rest) acc k = insertFolders rest acc (k + 1) := by
        simp [insertFolders, hp]
      rw [hfm, hstep, iheq, Prod.mk.injEq]
      exact ⟨rfl, by simp only [List.length_cons]; omega⟩
    | ok row =>
      have hfm : (j :: rest).filterMap (fun j => exGet (parseFolderRow j)) =
          row :: rest.filterMap (fun j => exGet (parseFolderRow j)) := by
        simp [List.filterMap_cons, hp, exGet]
      by_cases hdup : row.folder ∈ acc.map FolderRow.folder
      · have hany : (acc.any fun r => r.folder = row.folder) = true := by
          rw [List.any_eq_true]
          obtain ⟨r, hr, hre⟩ := List.mem_map.1 hdup
          exact ⟨r, hr, by simp [hre]⟩
        have hded : dedupBySlug ((j :: rest).filterMap
              (fun j => exGet (parseFolderRow j))) (acc.map FolderRow.folder) =
            dedupBySlug (rest.filterMap (fun j => exGet (parseFolderRow j)))
              (acc.map FolderRow.folder) := by
          rw [hfm]; simp [dedupBySlug, hdup]
        obtain ⟨ihlen, iheq⟩ := ih acc (k + 1)
        refine ⟨by rw [hded]; simp only [List.length_cons]; omega, ?_⟩
        have hstep : insertFolders (j :: rest) acc k = insertFolders rest acc (k + 1) := by
          simp [insertFolders, hp, hany]
        rw [hded, hstep, iheq, Prod.mk.injEq]
        exact ⟨rfl, by simp only [List.length_cons]; omega⟩
      · have hany : (acc.any fun r => r.folder = row.folder) = false := by
          rw [List.any_eq_false]
          intro r hr
          simp only [decide_eq_true_eq]
          intro hre
          exact hdup (List.mem_map.2 ⟨r, hr, hre⟩)
        have hded : dedupBySlug ((j :: rest).filterMap
              (fun j => exGet (parseFolderRow j))) (acc.map FolderRow.folder) =
            row :: dedupBySlug (rest.filterMap (fun j => exGet (parseFolderRow j)))
              (row.folder :: acc.map FolderRow.folder) := by
          rw [hfm]; simp [dedupBySlug, hdup]
        obtain ⟨ihlen, iheq⟩ := ih (acc ++ [row]) k
        have hseen : dedupBySlug (rest.filterMap (fun j => exGet (parseFolderRow j)))
            ((acc ++ [row]).map FolderRow.folder) =
            dedupBySlug (rest.filterMap (fun j => exGet (parseFolderRow j)))
              (row.folder :: acc.map FolderRow.folder) := by
          apply dedupBySlug_congr
          intro x
          simp only [List.map_append, List.map_cons, List.map_nil,
            List.mem_append, List.mem_cons, List.not_mem_nil, or_false]
          exact or_comm
        rw [hseen] at ihlen iheq
        refine ⟨by rw [hded]; simp only [List.length_cons]; omega, ?_⟩
        have hstep : insertFolders (j :: rest) acc k = insertFolders rest (acc ++ [row]) k := by
          simp [insertFolders, hp, hany]
        rw [hded, hstep, iheq, Prod.mk.injEq]
        constructor
        · simp
        · simp only [List.length_cons]; omega

/-- The images loop, characterized: inserted rows are exactly the
parseable records in order, the skipped counter counts the rest. -/
theorem insertImages_spec : ∀ (l : List Json) (acc : List ImageRow) (k : Nat),
    insertImages l acc k =
      (acc ++ l.filterMap (fun j => exGet (parseImageRow j)),
       k + (l.filter (fun j => !exOk (parseImageRow j))).length) := by
  intro l
  induction l with
  | nil => intro acc k; simp [insertImages]
  | cons j rest ih =>
    intro acc k
    cases hp : parseImageRow j with
    | error e =>
      simp [insertImages, hp, ih acc (k + 1), List.filterMap_cons,
        List.filter_cons, exGet, exOk]
      omega
    | ok row =>
      simp [insertImages, hp, ih (acc ++ [row]) k, List.filterMap_cons,
        List.filter_cons, exGet, exOk]

/-- The surveys loop, characterized the same way. -/
theorem insertSurveys_spec : ∀ (l : List Json) (acc : List SurveyRow) (k : Nat),
    insertSurveys l acc k =
      (acc ++ l.filterMap (fun j => exGet (parseSurveyRow j)),
       k + (l.filter (fun j => !exOk (parseSurveyRow j))).length) := by
  intro l
  induction l with
  | nil => intro acc k; simp [insertSurveys]
  | cons j rest ih =>
    intro acc k
    cases hp : parseSurveyRow j with
    | error e =>
      simp [insertSurveys, hp, ih acc (k + 1), List.filterMap_cons,
        List.filter_cons, exGet, exOk]
      omega
    | ok row =>
      simp [insertSurveys, hp, ih (acc ++ [row]) k, List.filterMap_cons,
        List.filter_cons, exGet, exOk]

/-- Deduplication is the identity on a slug-unique list touching none of
the seen slugs. -/
theorem dedupBySlug_nodup : ∀ (l : List FolderRow) (seen : List String),
    (l.map FolderRow.folder).Nodup → (∀ r ∈ l, r.folder ∉ seen) →
    dedupBySlug l seen = l := by
  intro l
  induction l with
  | nil => intro seen _ _; rfl
  | cons r rest ih =>
    intro seen hnd hout
    simp only [List.map_cons, List.nodup_cons] at hnd
    simp only [dedupBySlug, if_neg (hout r (by simp))]
    rw [ih (r.folder :: seen) hnd.2]
    intro q hq
    simp only [List.mem_cons]
    push_neg
    refine ⟨?_, hout q (by simp [hq])⟩
    intro hc
    exact hnd.1 (List.mem_map.2 ⟨q, hq, hc⟩)

/-- On a file whose content parses to a well-shaped object, restore_db
drops the tables and runs the three loops. -/
theorem restore_db_validShape (raw : String) (parse : String → Except String Json)
    (db : Store) (fs is ss : List Json)
    (hsp : pyAllSpace raw = false)
    (hp : parse raw = .ok (.obj [("folders", .arr fs), ("images", .arr is),
      ("surveys", .arr ss)])) :
    restore_db (.found raw) parse db =
      (⟨(insertFolders fs [] 0).1, (insertImages is [] 0).1,
        (insertSurveys ss [] 0).1⟩,
       [.successRestore (insertFolders fs [] 0).2 (insertImages is [] 0).2
        (insertSurveys ss [] 0).2]) := by
  have h1 : getListKey [("folders", Json.arr fs), ("images", Json.arr is),
      ("surveys", Json.arr ss)] "folders" = .ok fs := rfl
  have h2 : getListKey [("folders", Json.arr fs), ("images", Json.arr is),
      ("surveys", Json.arr ss)] "images" = .ok is := rfl
  have h3 : getListKey [("folders", Json.arr fs), ("images", Json.arr is),
      ("surveys", Json.arr ss)] "surveys" = .ok ss := rfl
  simp [restore_db, hsp, hp, h1, h2, h3]

/-- Serialized folder rows all parse back to themselves. -/
theorem filterMap_parseFolder_map (l : List FolderRow) :
    (l.map serFolder).filterMap (fun j => exGet (parseFolderRow j)) = l := by
  induction l with
  | nil => rfl
  | cons r rest ih =>
    simp only [List.map_cons, List.filterMap_cons, parseFolderRow_serFolder, exGet_ok]
    rw [ih]

/-- Serialized image rows of byte-string, non-empty blobs all parse back
to themselves and none is counted as an error. -/
theorem parseImage_map_ser (l : List ImageRow)
    (h : ∀ r ∈ l, (∀ x ∈ r.image_data, x < 256) ∧ r.image_data ≠ []) :
    (l.map serImage).filterMap (fun j => exGet (parseImageRow j)) = l ∧
    (l.map serImage).filter (fun j => !exOk (parseImageRow j)) = [] := by
  induction l with
  | nil => exact ⟨rfl, rfl⟩
  | cons r rest ih =>
    obtain ⟨hr1, hr2⟩ := h r (by simp)
    have hp := parseImageRow_serImage r hr1 hr2
    obtain ⟨ih1, ih2⟩ := ih (fun q hq => h q (by simp [hq]))
    constructor
    · simp only [List.map_cons, List.filterMap_cons, hp, exGet_ok]
      rw [ih1]
    · simp only [List.map_cons, List.filter_cons, hp, exOk_ok, Bool.not_true]
      rw [if_neg Bool.false_ne_true]
      exact ih2

/-- Serialized survey rows all parse back to themselves and none is
counted as an error. -/
theorem parseSurvey_map_ser (l : List SurveyRow) :
    (l.map serSurvey).filterMap (fun j => exGet (parseSurveyRow j)) = l ∧
    (l.map serSurvey).filter (fun j => !exOk (parseSurveyRow j)) = [] := by
  induction l with
  | nil => exact ⟨rfl, rfl⟩
  | cons r rest ih =>
    have hp := parseSurveyRow_serSurvey r
    obtain ⟨ih1, ih2⟩ := ih
    constructor
    · simp only [List.map_cons, List.filterMap_cons, hp, exGet_ok]
      rw [ih1]
    · simp only [List.map_cons, List.filter_cons, hp, exOk_ok, Bool.not_true]
      rw [if_neg Bool.false_ne_true]
      exact ih2

/-- C1, amended: the round trip is exact on well-formed stores whose
image blobs are all non-empty. -/
theorem claim_C1_roundtrip (db : Store) (hwf : db.WellFormed)
    (hne : db.BlobsNonEmpty) (raw : String)
    (parse : String → Except String Json) (db0 : Store)
    (hsp : pyAllSpace raw = false)
    (hp : parse raw = .ok (serialize_db db)) :
    restore_db (.found raw) parse db0 = (db, [.successRestore 0 0 0]) := by
  have hshape := restore_db_validShape raw parse db0
    (db.folders.map serFolder) (db.images.map serImage)
    (db.surveys.map serSurvey) hsp hp
  obtain ⟨hflen, hfeq⟩ := insertFolders_spec (db.folders.map serFolder) [] 0
  have hffm : ((db.folders.map serFolder).filterMap
      (fun j => exGet (parseFolderRow j))) = db.folders :=
    filterMap_parseFolder_map db.folders
  have hfded : dedupBySlug db.folders [] = db.folders :=
    dedupBySlug_nodup db.folders [] hwf.1 (by simp)
  rw [hffm] at hfeq
  simp only [List.map_nil] at hfeq
  rw [hfded] at hfeq
  obtain ⟨hifm, hifl⟩ := parseImage_map_ser db.images
    (fun r hr => ⟨hwf.2 r hr, hne r hr⟩)
  have hieq := insertImages_spec (db.images.map serImage) [] 0
  rw [hifm, hifl] at hieq
  obtain ⟨hsfm, hsfl⟩ := parseSurvey_map_ser db.surveys
  have hseq := insertSurveys_spec (db.surveys.map serSurvey) [] 0
  rw [hsfm, hsfl] at hseq
  rw [hshape, hfeq, hieq, hseq]
  simp

/-- C1 witness: the round trip at a concrete store with one folder, one
three-byte image and one survey entry. -/
theorem claim_C1_witness :
    restore_db (.found "backup")
        (fun _ => .ok (serialize_db
          ⟨[⟨"sarika", "Sarika", 28, "Photographer", "Artists"⟩],
           [⟨"img1", "sarika", [65, 66, 67], 1⟩],
           [⟨"sarika", 5, some "nice", "2025-01-01T00:00:00"⟩]⟩))
        ⟨[], [], []⟩ =
      (⟨[⟨"sarika", "Sarika", 28, "Photographer", "Artists"⟩],
        [⟨"img1", "sarika", [65, 66, 67], 1⟩],
        [⟨"sarika", 5, some "nice", "2025-01-01T00:00:00"⟩]⟩,
       [.successRestore 0 0 0]) :=
  claim_C1_roundtrip
    ⟨[⟨"sarika", "Sarika", 28, "Photographer", "Artists"⟩],
     [⟨"img1", "sarika", [65, 66, 67], 1⟩],
     [⟨"sarika", 5, some "nice", "2025-01-01T00:00:00"⟩]⟩
    ⟨by decide, by decide⟩
    (by intro r hr
        simp only [List.mem_singleton] at hr
        subst hr
        simp)
    "backup" (fun _ => .ok (serialize_db
      ⟨[⟨"sarika", "Sarika", 28, "Photographer", "Artists"⟩],
       [⟨"img1", "sarika", [65, 66, 67], 1⟩],
       [⟨"sarika", 5, some "nice", "2025-01-01T00:00:00"⟩]⟩))
    ⟨[], [], []⟩ rfl rfl

/-- A schema-valid store on which the C1 round trip, as stated, fails:
one image row with an empty (but NOT NULL satisfying) blob. -/
def storeEmptyBlob : Store :=
  ⟨[], [⟨"img1", "sarika", [], 1⟩], []⟩

/-- C1 as stated is false: `storeEmptyBlob` satisfies the schema
constraints (unique slugs, byte-string blob), yet restoring its
serialized snapshot drops the image (its blob serializes to the empty
base64 string, which restore treats as missing image_data) and reports
one skipped image row instead of zero. -/
theorem claim_C1_counterexample :
    storeEmptyBlob.WellFormed ∧
    restore_db (.found "backup") (fun _ => .ok (serialize_db storeEmptyBlob))
        ⟨[], [], []⟩ =
      (⟨[], [], []⟩, [.successRestore 0 1 0]) ∧
    storeEmptyBlob.images ≠ [] := by
  refine ⟨by simp [Store.WellFormed, storeEmptyBlob], ?_, by simp [storeEmptyBlob]⟩
  rfl

/-- A fully well-formed folder record (all required fields present, age
an integer) used to exhibit the duplicate-slug behaviour of restore. -/
def dupFolderObj : Json :=
  .obj [("folder", .str "sarika"), ("name", .str "Sarika"), ("age", .int 28),
        ("profession", .str "Photographer"), ("category", .str "Artists")]

/-- C2 as stated is false: a valid-shaped snapshot whose folders list
holds the same well-formed record twice (parseFolderRow succeeds on it,
so by the claim's definition it is not malformed) restores only one
folder row and reports one skipped folder, where the claim requires
every well-formed row inserted and only malformed rows counted. The
second insert violates the UNIQUE constraint on the slug, and the
per-row guard counts it as skipped. -/
theorem claim_C2_counterexample :
    parseFolderRow dupFolderObj =
      Except.ok ⟨"sarika", "Sarika", 28, "Photographer", "Artists"⟩ ∧
    restore_db (.found "backup")
        (fun _ => .ok (.obj [("folders", .arr [dupFolderObj, dupFolderObj]),
          ("images", .arr []), ("surveys", .arr [])])) ⟨[], [], []⟩ =
      (⟨[⟨"sarika", "Sarika", 28, "Photographer", "Artists"⟩], [], []⟩,
       [.successRestore 1 0 0]) :=
  ⟨rfl, rfl⟩

/-- The three-image snapshot of the C2 example: the middle record lacks
image_data, the other two decode to the bytes 65 and 65-66. -/
def threeImagesSnapshot : Json :=
  .obj [("folders", .arr []),
        ("images", .arr
          [.obj [("name", .str "i1"), ("folder", .str "f1"),
                 ("image_data", .str "QQ=="), ("download_allowed", .int 1)],
           .obj [("name", .str "i2"), ("folder", .str "f1")],
           .obj [("name", .str "i3"), ("folder", .str "f1"),
                 ("image_data", .str "QUI="), ("download_allowed", .int 0)]]),
        ("surveys", .arr [])]

/-- C2, amended: on any valid-shaped snapshot the restore never aborts;
each image and survey record is inserted exactly when its row parses,
and otherwise counted in its collection's skipped counter; a folder
record is inserted when it parses and its slug is not already taken by
an earlier restored row, and otherwise counted; and the concrete
three-image example restores the two well-formed images with correctly
decoded blobs and counts one skipped image. -/
theorem claim_C2_row_isolation :
    (∀ (fs is ss : List Json) (raw : String)
       (parse : String → Except String Json) (db0 : Store),
      pyAllSpace raw = false →
      parse raw = .ok (.obj [("folders", .arr fs), ("images", .arr is),
        ("surveys", .arr ss)]) →
      restore_db (.found raw) parse db0 =
        (⟨keptFolders fs,
          is.filterMap (fun j => exGet (parseImageRow j)),
          ss.filterMap (fun j => exGet (parseSurveyRow j))⟩,
         [.successRestore (fs.length - (keptFolders fs).length)
           (is.filter (fun j => !exOk (parseImageRow j))).length
           (ss.filter (fun j => !exOk (parseSurveyRow j))).length])) ∧
    restore_db (.found "backup") (fun _ => .ok threeImagesSnapshot) ⟨[], [], []⟩ =
      (⟨[], [⟨"i1", "f1", [65], 1⟩, ⟨"i3", "f1", [65, 66], 0⟩], []⟩,
       [.successRestore 0 1 0]) := by
  constructor
  · intro fs is ss raw parse db0 hsp hp
    rw [restore_db_validShape raw parse db0 fs is ss hsp hp]
    obtain ⟨hflen, hfeq⟩ := insertFolders_spec fs [] 0
    simp only [List.map_nil] at hfeq
    rw [insertImages_spec is [] 0, insertSurveys_spec ss [] 0, hfeq]
    simp [keptFolders]
  · rfl

/-- C2 witness: the general characterization applied to the concrete
three-image snapshot. -/
theorem claim_C2_witness :
    restore_db (.found "backup") (fun _ => .ok threeImagesSnapshot) ⟨[], [], []⟩ =
      (⟨keptFolders [],
        [.obj [("name", .str "i1"), ("folder", .str "f1"),
               ("image_data", .str "QQ=="), ("download_allowed", .int 1)],
         .obj [("name", .str "i2"), ("folder", .str "f1")],
         .obj [("name", .str "i3"), ("folder", .str "f1"),
               ("image_data", .str "QUI="), ("download_allowed", .int 0)]].filterMap
          (fun j => exGet (parseImageRow j)),
        [].filterMap (fun j => exGet (parseSurveyRow j))⟩,
       [.successRestore 0 1 0]) := by
  have h := claim_C2_row_isolation.1 []
    [.obj [("name", .str "i1"), ("folder", .str "f1"),
           ("image_data", .str "QQ=="), ("download_allowed", .int 1)],
     .obj [("name", .str "i2"), ("folder", .str "f1")],
     .obj [("name", .str "i3"), ("folder", .str "f1"),
           ("image_data", .str "QUI="), ("download_allowed", .int 0)]]
    [] "backup" (fun _ => .ok threeImagesSnapshot) ⟨[], [], []⟩ rfl rfl
  rw [h]
  rfl

/-- C3: on every bad input — file absent, content all whitespace, JSON
parse failure, non-object root, a missing required key, or a required
key bound to a non-list — restore returns with the store exactly as
before, emitting the one message of that failure category. -/
theorem claim_C3_bad_input_atomicity (parse : String → Except String Json)
    (db : Store) (raw : String) :
    (restore_db .absent parse db = (db, [.infoNoBackup])) ∧
    (pyAllSpace raw = true →
      restore_db (.found raw) parse db = (db, [.warnBackupFileEmpty])) ∧
    (∀ e, pyAllSpace raw = false → parse raw = .error e →
      restore_db (.found raw) parse db = (db, [.errBackupNotValidJson e])) ∧
    (∀ j, pyAllSpace raw = false → parse raw = .ok j →
      (∀ fields, j ≠ .obj fields) →
      restore_db (.found raw) parse db = (db, [.errRootNotObject])) ∧
    (∀ fields m, pyAllSpace raw = false → parse raw = .ok (.obj fields) →
      getListKey fields "folders" = .error m →
      restore_db (.found raw) parse db = (db, [m]) ∧
        (m = .errMissingKey "folders" ∨ m = .errKeyNotList "folders")) ∧
    (∀ fields fs m, pyAllSpace raw = false → parse raw = .ok (.obj fields) →
      getListKey fields "folders" = .ok fs →
      getListKey fields "images" = .error m →
      restore_db (.found raw) parse db = (db, [m]) ∧
        (m = .errMissingKey "images" ∨ m = .errKeyNotList "images")) ∧
    (∀ fields fs is m, pyAllSpace raw = false → parse raw = .ok (.obj fields) →
      getListKey fields "folders" = .ok fs →
      getListKey fields "images" = .ok is →
      getListKey fields "surveys" = .error m →
      restore_db (.found raw) parse db = (db, [m]) ∧
        (m = .errMissingKey "surveys" ∨ m = .errKeyNotList "surveys")) := by
  have hkey : ∀ (fields : List (String × Json)) (key : String) (m : StMsg),
      getListKey fields key = .error m →
      m = .errMissingKey key ∨ m = .errKeyNotList key := by
    intro fields key m hm
    unfold getListKey at hm
    cases hl : jlookup fields key with
    | none => rw [hl] at hm; exact Or.inl (by cases hm; rfl)
    | some v =>
      rw [hl] at hm
      cases v <;> simp_all
  refine ⟨rfl, ?_, ?_, ?_, ?_, ?_, ?_⟩
  · intro hsp; simp [restore_db, hsp]
  · intro e hsp hp; simp [restore_db, hsp, hp]
  · intro j hsp hp hobj
    cases j with
    | obj fields => exact absurd rfl (hobj fields)
    | null => simp [restore_db, hsp, hp]
    | bool b => simp [restore_db, hsp, hp]
    | int n => simp [restore_db, hsp, hp]
    | str s => simp [restore_db, hsp, hp]
    | arr xs => simp [restore_db, hsp, hp]
  · intro fields m hsp hp hk
    exact ⟨by simp [restore_db, hsp, hp, hk], hkey fields "folders" m hk⟩
  · intro fields fs m hsp hp hk1 hk2
    exact ⟨by simp [restore_db, hsp, hp, hk1, hk2], hkey fields "images" m hk2⟩
  · intro fields fs is m hsp hp hk1 hk2 hk3
    exact ⟨by simp [restore_db, hsp, hp, hk1, hk2, hk3],
      hkey fields "surveys" m hk3⟩

/-- C3 witness: the parse-failure case at a concrete file and store: a
raw text that json.loads rejects leaves a non-empty store untouched and
reports the parse error detail. -/
theorem claim_C3_witness :
    restore_db (.found "not json") (fun _ => .error "Expecting value")
        ⟨[⟨"sarika", "Sarika", 28, "Photographer", "Artists"⟩], [], []⟩ =
      (⟨[⟨"sarika", "Sarika", 28, "Photographer", "Artists"⟩], [], []⟩,
       [.errBackupNotValidJson "Expecting value"]) :=
  (claim_C3_bad_input_atomicity (fun _ => .error "Expecting value")
    ⟨[⟨"sarika", "Sarika", 28, "Photographer", "Artists"⟩], [], []⟩
    "not json").2.2.1 "Expecting value" rfl rfl

/-- C10: restore defaults and required fields. An image record with only
name, folder and a decodable non-empty image_data is restored with
download_allowed defaulting to 1; a survey record with only folder, an
integer rating and timestamp is restored with null feedback; and
dropping any of those required fields makes the row fail its parse. -/
theorem claim_C10_restore_defaults :
    (∀ (nm fl s : String) (bytes : List Nat) (fl2 : String) (rt : Int)
       (ts raw : String) (parse : String → Except String Json) (db0 : Store),
      b64decode s = .ok bytes → pyAllSpace s = false → pyAllSpace raw = false →
      parse raw = .ok (.obj [("folders", .arr []),
        ("images", .arr [.obj [("name", .str nm), ("folder", .str fl),
          ("image_data", .str s)]]),
        ("surveys", .arr [.obj [("folder", .str fl2), ("rating", .int rt),
          ("timestamp", .str ts)]])]) →
      restore_db (.found raw) parse db0 =
        (⟨[], [⟨nm, fl, bytes, 1⟩], [⟨fl2, rt, none, ts⟩]⟩,
         [.successRestore 0 0 0])) ∧
    (∀ fl s : String,
      exOk (parseImageRow (.obj [("folder", .str fl), ("image_data", .str s)]))
        = false) ∧
    (∀ nm s : String,
      exOk (parseImageRow (.obj [("name", .str nm), ("image_data", .str s)]))
        = false) ∧
    (∀ nm fl : String,
      exOk (parseImageRow (.obj [("name", .str nm), ("folder", .str fl)]))
        = false) ∧
    (∀ (rt : Int) (ts : String),
      exOk (parseSurveyRow (.obj [("rating", .int rt), ("timestamp", .str ts)]))
        = false) ∧
    (∀ (fl2 ts : String),
      exOk (parseSurveyRow (.obj [("folder", .str fl2), ("timestamp", .str ts)]))
        = false) ∧
    (∀ (fl2 : String) (rt : Int),
      exOk (parseSurveyRow (.obj [("folder", .str fl2), ("rating", .int rt)]))
        = false) := by
  refine ⟨?_, fun fl s => rfl, fun nm s => rfl, fun nm fl => rfl,
    fun rt ts => rfl, fun fl2 ts => rfl, fun fl2 rt => rfl⟩
  intro nm fl s bytes fl2 rt ts raw parse db0 hdec hs hraw hp
  rw [restore_db_validShape raw parse db0 _ _ _ hraw hp]
  have himg : parseImageRow (.obj [("name", .str nm), ("folder", .str fl),
      ("image_data", .str s)]) = Except.ok ⟨nm, fl, bytes, 1⟩ := by
    simp [parseImageRow, jget, jgetOpt, jlookup, hs, hdec, bind, Except.bind,
      pyInt, toSqlText, Option.getD, pure, Except.pure]
  have hsv : parseSurveyRow (.obj [("folder", .str fl2), ("rating", .int rt),
      ("timestamp", .str ts)]) = Except.ok ⟨fl2, rt, none, ts⟩ := rfl
  rw [insertImages_spec, insertSurveys_spec]
  simp [insertFolders, himg, hsv, List.filterMap_cons, List.filter_cons,
    exGet, exOk, dedupBySlug]

/-- C10 witness: the defaulting branch applied at concrete rows. -/
theorem claim_C10_witness :
    restore_db (.found "backup")
        (fun _ => .ok (.obj [("folders", .arr []),
          ("images", .arr [.obj [("name", .str "i1"), ("folder", .str "f1"),
            ("image_data", .str "QQ==")]]),
          ("surveys", .arr [.obj [("folder", .str "f1"), ("rating", .int 5),
            ("timestamp", .str "t1")]])])) ⟨[], [], []⟩ =
      (⟨[], [⟨"i1", "f1", [65], 1⟩], [⟨"f1", 5, none, "t1"⟩]⟩,
       [.successRestore 0 0 0]) :=
  claim_C10_restore_defaults.1 "i1" "f1" "QQ==" [65] "f1" 5 "t1" "backup"
    (fun _ => .ok (.obj [("folders", .arr []),
      ("images", .arr [.obj [("name", .str "i1"), ("folder", .str "f1"),
        ("image_data", .str "QQ==")]]),
      ("surveys", .arr [.obj [("folder", .str "f1"), ("rating", .int 5),
        ("timestamp", .str "t1")]])])) ⟨[], [], []⟩ rfl rfl rfl rfl

/-- The quantifier-plus-anchor matcher accepts exactly when some prefix
of j further class characters (extending the n already consumed) reaches
a count in [3, 20] at a position where `$` matches. -/
theorem slugQuant_iff (l : List Char) : ∀ (n : Nat),
    slugQuant l n = true ↔
      ∃ j, j ≤ l.length ∧ 3 ≤ n + j ∧ (1 ≤ j → n + j ≤ 20) ∧
        (∀ c ∈ l.take j, isSlugChar c = true) ∧ dollarAt (l.drop j) = true := by
  induction l with
  | nil =>
    intro n
    constructor
    · intro h
      have h3 : 3 ≤ n := by simpa [slugQuant] using h
      exact ⟨0, by simp, by omega, by omega, by simp, by simp [dollarAt]⟩
    · rintro ⟨j, hj, h3, _, _, _⟩
      simp only [List.length_nil, Nat.le_zero] at hj
      subst hj
      simp only [slugQuant, decide_eq_true_eq]
      omega
  | cons c rs ih =>
    intro n
    simp only [slugQuant, Bool.or_eq_true, Bool.and_eq_true, decide_eq_true_eq]
    constructor
    · intro h
      rcases h with ⟨h3, hd⟩ | ⟨⟨h20, hc⟩, hq⟩
      · exact ⟨0, by simp, by omega, by omega, by simp, by simpa using hd⟩
      · obtain ⟨j, hj, h3, h20b, hall, hd⟩ := (ih (n + 1)).1 hq
        refine ⟨j + 1, by simp only [List.length_cons]; omega, by omega, ?_, ?_, ?_⟩
        · intro _
          rcases Nat.eq_zero_or_pos j with rfl | hpos
          · omega
          · have := h20b hpos; omega
        · intro x hx
          simp only [List.take_succ_cons, List.mem_cons] at hx
          rcases hx with rfl | hx
          · exact hc
          · exact hall x hx
        · simpa [List.drop_succ_cons] using hd
    · rintro ⟨j, hj, h3, h20, hall, hd⟩
      cases j with
      | zero =>
        left
        exact ⟨by omega, by simpa using hd⟩
      | succ j =>
        right
        have h20a : n + (j + 1) ≤ 20 := h20 (by omega)
        refine ⟨⟨by omega, hall c (by simp)⟩, ?_⟩
        apply (ih (n + 1)).2
        refine ⟨j, by simp only [List.length_cons] at hj; omega, by omega,
          fun _ => by omega, ?_, ?_⟩
        · intro x hx
          exact hall x (by simp [List.take_succ_cons, hx])
        · simpa [List.drop_succ_cons] using hd

/-- The validator accepts exactly the strings of 3 to 20 class
characters, optionally followed by one final newline (the
before-trailing-newline case of the `$` anchor). -/
theorem slugQuant_zero_iff (l : List Char) :
    slugQuant l 0 = true ↔
      SlugCore l ∨ ∃ li, l = li ++ ['\n'] ∧ SlugCore li := by
  constructor
  · intro h
    obtain ⟨j, hj, h3, h20, hall, hd⟩ := (slugQuant_iff l 0).1 h
    rcases hdrop : l.drop j with _ | ⟨ch, _ | ⟨ch2, tl2⟩⟩
    · left
      have hlen : l.length - j = 0 := by
        have := congrArg List.length hdrop
        simpa [List.length_drop] using this
      have hj2 : j = l.length := by omega
      have htake : l.take j = l := by
        rw [hj2, List.take_length]
      refine ⟨by omega, ?_, by rw [← htake]; exact hall⟩
      have := h20 (by omega)
      omega
    · right
      rw [hdrop] at hd
      have hch : ch = '\n' := by simpa [dollarAt] using hd
      have hlen : l.length - j = 1 := by
        have := congrArg List.length hdrop
        simpa [List.length_drop] using this
      have htl : (l.take j).length = j := by
        simp only [List.length_take]
        omega
      refine ⟨l.take j, ?_, by omega, by omega, hall⟩
      conv_lhs => rw [← List.take_append_drop j l]
      rw [hdrop, hch]
    · rw [hdrop] at hd
      simp [dollarAt] at hd
  · rintro (⟨h3, h20, hall⟩ | ⟨li, heq, h3, h20, hall⟩)
    · apply (slugQuant_iff l 0).2
      refine ⟨l.length, le_rfl, by omega, fun _ => by omega, ?_, ?_⟩
      · rw [List.take_length]
        exact hall
      · rw [List.drop_length]
        rfl
    · apply (slugQuant_iff l 0).2
      refine ⟨li.length, ?_, by omega, fun _ => by omega, ?_, ?_⟩
      · rw [heq]; simp
      · rw [heq, List.take_left]
        exact hall
      · rw [heq, List.drop_left]
        simp [dollarAt]

theorem validate_folder_name_iff (s : String) :
    validate_folder_name s = true ↔
      SlugCore s.toList ∨ ∃ li, s.toList = li ++ ['\n'] ∧ SlugCore li :=
  slugQuant_zero_iff s.toList

/-- C4 as stated is false: the string of three class characters followed
by a newline contains a character outside `[a-z0-9_]` (a whitespace
character), yet the validator returns true, because in Python the `$`
anchor of re.match also matches just before a trailing newline. -/
theorem claim_C4_counterexample :
    validate_folder_name "abc\n" = true ∧ isSlugChar '\n' = false ∧
    isPyWs '\n' = true :=
  ⟨rfl, rfl, rfl⟩

/-- C4, amended: the validator returns true exactly on strings of 3 to
20 characters from `[a-z0-9_]`, or such a core followed by one final
newline; in particular the spec's examples behave as stated. -/
theorem claim_C4_validator :
    (∀ s : String, validate_folder_name s = true ↔
      SlugCore s.toList ∨ ∃ li, s.toList = li ++ ['\n'] ∧ SlugCore li) ∧
    validate_folder_name "ab" = false ∧
    validate_folder_name "sarika_2" = true ∧
    validate_folder_name "Sarika" = false :=
  ⟨validate_folder_name_iff, rfl, rfl, rfl⟩

/-- C4 witness: one of the spec's own examples, taken from the amended
theorem. -/
theorem claim_C4_witness : validate_folder_name "sarika_2" = true :=
  claim_C4_validator.2.2.1

/-- C5: inserting a valid, fresh slug succeeds and appends exactly one
row; a second insert of the same slug fails with the IntegrityError
branch, leaves the store unchanged, and the store then holds exactly
one row with that slug. -/
theorem claim_C5_duplicate_folder (db : Store) (f n : String) (a : Int)
    (p c n2 : String) (a2 : Int) (p2 c2 : String)
    (hv : validate_folder_name f = true)
    (habs : ∀ r ∈ db.folders, r.folder ≠ f) :
    (add_folder db f n a p c).2.1 = true ∧
    (add_folder db f n a p c).1.folders = db.folders ++ [⟨f, n, a, p, c⟩] ∧
    ((add_folder db f n a p c).1.folders.filter
      (fun r => r.folder = f)).length = 1 ∧
    add_folder (add_folder db f n a p c).1 f n2 a2 p2 c2 =
      ((add_folder db f n a p c).1, false, [.errFolderExists f]) := by
  have hany : (db.folders.any fun r => r.folder = f) = false := by
    rw [List.any_eq_false]
    intro r hr
    simpa using habs r hr
  have h1 : add_folder db f n a p c =
      ({ db with folders := db.folders ++ [⟨f, n, a, p, c⟩] }, true, []) := by
    simp [add_folder, hv, hany]
  have hnil : db.folders.filter (fun r => r.folder = f) = [] := by
    rw [List.filter_eq_nil_iff]
    intro r hr
    simpa using habs r hr
  refine ⟨by rw [h1], by rw [h1], ?_, ?_⟩
  · rw [h1]
    simp [List.filter_append, hnil]
  · rw [h1]
    have hany2 : ((db.folders ++ [(⟨f, n, a, p, c⟩ : FolderRow)]).any
        fun r => r.folder = f) = true := by
      simp
    simp [add_folder, hv, hany2]

/-- C5 witness: the duplicate-insert behaviour at the slug sarika on an
initially empty store. -/
theorem claim_C5_witness :
    add_folder (add_folder ⟨[], [], []⟩ "sarika" "Sarika" 28 "Photographer"
        "Artists").1 "sarika" "Other" 30 "Sculptor" "Artists" =
      ((add_folder ⟨[], [], []⟩ "sarika" "Sarika" 28 "Photographer"
        "Artists").1, false, [.errFolderExists "sarika"]) :=
  (claim_C5_duplicate_folder ⟨[], [], []⟩ "sarika" "Sarika" 28 "Photographer"
    "Artists" "Other" 30 "Sculptor" "Artists" rfl (by simp)).2.2.2

/-- C6: a folder name rejected by the validator makes add_folder return
false immediately with the message naming the constraint (3-20
characters, lowercase alphanumeric or underscores), and the store is
unchanged. -/
theorem claim_C6_validation_precedes_mutation (db : Store) (f n : String)
    (a : Int) (p c : String) (hv : validate_folder_name f = false) :
    add_folder db f n a p c = (db, false, [.errFolderNameInvalid]) := by
  simp [add_folder, hv]

/-- C6 witness: an uppercase name is rejected without touching a
non-empty store. -/
theorem claim_C6_witness :
    add_folder ⟨[⟨"jamuna", "Jamuna", 32, "Sculptor", "Artists"⟩], [], []⟩
        "Sarika" "Sarika" 28 "Photographer" "Artists" =
      (⟨[⟨"jamuna", "Jamuna", 32, "Sculptor", "Artists"⟩], [], []⟩, false,
       [.errFolderNameInvalid]) :=
  claim_C6_validation_precedes_mutation
    ⟨[⟨"jamuna", "Jamuna", 32, "Sculptor", "Artists"⟩], [], []⟩
    "Sarika" "Sarika" 28 "Photographer" "Artists" rfl

/-- C9: deleting a survey entry by (folder, timestamp) removes every row
matching both values — including several rows sharing the identical
timestamp — keeps every other row with its multiplicity, and leaves the
other two tables untouched. -/
theorem claim_C9_survey_delete (db : Store) (f t : String) :
    ((delete_survey_entry db f t).folders = db.folders) ∧
    ((delete_survey_entry db f t).images = db.images) ∧
    (∀ r : SurveyRow, r.folder = f → r.timestamp = t →
      r ∉ (delete_survey_entry db f t).surveys) ∧
    (∀ r : SurveyRow, ¬(r.folder = f ∧ r.timestamp = t) →
      (delete_survey_entry db f t).surveys.count r = db.surveys.count r) := by
  refine ⟨rfl, rfl, ?_, ?_⟩
  · intro r hf ht hmem
    rw [delete_survey_entry] at hmem
    simp only [List.mem_filter] at hmem
    simp [hf, ht] at hmem
  · intro r hnot
    rw [delete_survey_entry]
    simp only
    induction db.surveys with
    | nil => rfl
    | cons q rest ih =>
      by_cases hq : q = r
      · subst hq
        have hp : (!(q.folder = f && q.timestamp = t)) = true := by
          simp only [Bool.not_eq_true']
          rw [Bool.and_eq_false_iff]
          rcases not_and_or.1 hnot with h | h
          · exact Or.inl (by simpa using h)
          · exact Or.inr (by simpa using h)
        rw [List.filter_cons, if_pos hp, List.count_cons_self,
          List.count_cons_self, ih]
      · have hne : r ≠ q := fun h => hq h.symm
        rw [List.filter_cons]
        by_cases hp : (!(q.folder = f && q.timestamp = t)) = true
        · rw [if_pos hp]
          simp only [List.count_cons_of_ne hne]
          exact ih
        · rw [if_neg hp]
          simp only [List.count_cons_of_ne hne]
          exact ih

/-- C9 witness: two entries with the same timestamp are both removed,
and a row with a different timestamp keeps its count. -/
theorem claim_C9_witness :
    (⟨"f1", 4, none, "t1"⟩ : SurveyRow) ∉
      (delete_survey_entry
        ⟨[], [], [⟨"f1", 4, none, "t1"⟩, ⟨"f1", 5, some "x", "t2"⟩,
          ⟨"f1", 4, none, "t1"⟩]⟩ "f1" "t1").surveys ∧
    (delete_survey_entry
        ⟨[], [], [⟨"f1", 4, none, "t1"⟩, ⟨"f1", 5, some "x", "t2"⟩,
          ⟨"f1", 4, none, "t1"⟩]⟩ "f1" "t1").surveys.count
      ⟨"f1", 5, some "x", "t2"⟩ =
    ([⟨"f1", 4, none, "t1"⟩, ⟨"f1", 5, some "x", "t2"⟩,
      ⟨"f1", 4, none, "t1"⟩] : List SurveyRow).count ⟨"f1", 5, some "x", "t2"⟩ :=
  ⟨(claim_C9_survey_delete
      ⟨[], [], [⟨"f1", 4, none, "t1"⟩, ⟨"f1", 5, some "x", "t2"⟩,
        ⟨"f1", 4, none, "t1"⟩]⟩ "f1" "t1").2.2.1 ⟨"f1", 4, none, "t1"⟩ rfl rfl,
   (claim_C9_survey_delete
      ⟨[], [], [⟨"f1", 4, none, "t1"⟩, ⟨"f1", 5, some "x", "t2"⟩,
        ⟨"f1", 4, none, "t1"⟩]⟩ "f1" "t1").2.2.2 ⟨"f1", 5, some "x", "t2"⟩
     (by simp)⟩

/-- The calls of the write step: always exactly one putContents,
appended to the prior trace, carrying the payload sha. -/
theorem doPut_calls (pre : List StMsg) (calls : List NetCall)
    (sha : Option String) (p : Option String → HttpResp) :
    (doPut pre calls sha p).calls = calls ++ [.putContents sha] := by
  unfold doPut
  split
  · rfl
  · split <;> rfl

/-- Messages already emitted survive the write step. -/
theorem doPut_msg_pre (pre : List StMsg) (calls : List NetCall)
    (sha : Option String) (p : Option String → HttpResp) :
    ∀ m ∈ pre, m ∈ (doPut pre calls sha p).msgs := by
  intro m hm
  unfold doPut
  split
  · simp [hm]
  · split <;> simp [hm]

/-- A write answered 409 is reported with its status and reason. -/
theorem doPut_msg_conflict (pre : List StMsg) (calls : List NetCall)
    (sha : Option String) (p : Option String → HttpResp)
    (h : (p sha).status = 409) :
    StMsg.errCommitFailed (p sha).status (p sha).reason ∈
      (doPut pre calls sha p).msgs := by
  simp [doPut, h]

/-- The write step adds exactly one to the putContents count. -/
theorem countPut_doPut (pre : List StMsg) (calls : List NetCall)
    (sha : Option String) (p : Option String → HttpResp) :
    countPut (doPut pre calls sha p).calls = countPut calls + 1 := by
  rw [doPut_calls]
  simp [countPut, List.filter_append]

/-- C7: once the local preconditions and the identity probe pass, a
revision-pointer read answering 200 with a non-empty sha leads to a
single write whose body carries that sha; a 404 answer leads to a single
write without a sha, announced as first-time creation, not treated as an
error; a write rejected by the host (e.g. 409 for a stale pointer) is
reported with its status and reason; and on every input whatsoever the
client issues at most one write — it never retries. -/
theorem claim_C7_cas_push (env : SyncEnv) (u c : HttpResp)
    (putResp : Option String → HttpResp) (content : String)
    (h1 : tokenFalsy env.github_token = false)
    (h2 : tokenStartOk (env.github_token.getD "") = true)
    (h3 : env.repo_url.isEmpty = false)
    (h4 : env.backup_file = some content)
    (h5 : repoInfoFalsy (_parse_github_repo_info env.repo_url) = false)
    (h6 : pyAllSpace content = false)
    (h7 : u.status = 200) :
    (∀ s, c.status = 200 → c.sha = some s → s.isEmpty = false →
      (commit_backup_api env u c putResp).calls =
        [.getUser, .getContents, .putContents (some s)]) ∧
    (c.status = 404 →
      (commit_backup_api env u c putResp).calls =
        [.getUser, .getContents, .putContents none] ∧
      .infoCreatingNewFile ∈ (commit_backup_api env u c putResp).msgs) ∧
    (∀ s, c.status = 200 → c.sha = some s → s.isEmpty = false →
      (putResp (some s)).status = 409 →
      .errCommitFailed 409 (putResp (some s)).reason ∈
        (commit_backup_api env u c putResp).msgs) ∧
    (∀ (env2 : SyncEnv) (u2 c2 : HttpResp) (p2 : Option String → HttpResp),
      countPut (commit_backup_api env2 u2 c2 p2).calls ≤ 1) := by
  have hpre : commit_backup_api env u c putResp =
      (if c.status = 200 then
        doPut [StMsg.infoAuthenticated u.login]
          [NetCall.getUser, NetCall.getContents] (shaPayloadOf c) putResp
      else if c.status = 404 then
        doPut ([StMsg.infoAuthenticated u.login] ++ [.infoCreatingNewFile])
          [NetCall.getUser, NetCall.getContents] none putResp
      else
        ⟨[StMsg.infoAuthenticated u.login] ++
          [.errCheckFailed c.status c.reason],
         [NetCall.getUser, NetCall.getContents]⟩) := by
    simp [commit_backup_api, h1, h2, h3, h4, h5, h6, h7]
  refine ⟨?_, ?_, ?_, ?_⟩
  · intro s hc hsha hemp
    have hsp : shaPayloadOf c = some s := by
      simp [shaPayloadOf, hsha, hemp]
    rw [hpre, if_pos hc, hsp, doPut_calls]
    rfl
  · intro hc
    have hc2 : ¬(c.status = 200) := by omega
    rw [hpre, if_neg hc2, if_pos hc]
    refine ⟨by rw [doPut_calls]; rfl, ?_⟩
    exact doPut_msg_pre _ _ _ _ _ (by simp)
  · intro s hc hsha hemp h409
    have hsp : shaPayloadOf c = some s := by
      simp [shaPayloadOf, hsha, hemp]
    rw [hpre, if_pos hc, hsp]
    have := doPut_msg_conflict [StMsg.infoAuthenticated u.login]
      [NetCall.getUser, NetCall.getContents] (some s) putResp h409
    rw [h409] at this
    exact this
  · intro env2 u2 c2 p2
    unfold commit_backup_api
    split
    · simp [countPut]
    split
    · simp [countPut]
    split
    · simp [countPut]
    split
    · simp [countPut]
    split
    · simp [countPut]
    split
    · simp [countPut]
    split
    · split
      · simp [countPut]
      · split <;> simp [countPut]
    · split
      · rw [countPut_doPut]
        simp [countPut]
      · split
        · rw [countPut_doPut]
          simp [countPut]
        · simp [countPut]

/-- C7 witness: a concrete push against a prior revision abc whose write
is rejected with 409 Conflict: the failure is reported with status and
reason, and exactly the one write carrying sha abc was issued. -/
theorem claim_C7_witness :
    StMsg.errCommitFailed 409 "Conflict" ∈
      (commit_backup_api
        ⟨some "ghp_token", "https://github.com/coffeecode19345/dristee1.git",
         some "data"⟩
        ⟨200, "OK", none, some "coffeecode19345", none⟩
        ⟨200, "OK", some "abc", none, none⟩
        (fun _ => ⟨409, "Conflict", none, none, none⟩)).msgs :=
  (claim_C7_cas_push
    ⟨some "ghp_token", "https://github.com/coffeecode19345/dristee1.git",
     some "data"⟩
    ⟨200, "OK", none, some "coffeecode19345", none⟩
    ⟨200, "OK", some "abc", none, none⟩
    (fun _ => ⟨409, "Conflict", none, none, none⟩) "data"
    rfl rfl rfl rfl rfl rfl rfl).2.2.1 "abc" rfl rfl rfl rfl

/-- C8: each of the six failing preconditions — unset credential, wrong
credential format, unset remote location, missing local snapshot file,
unparseable remote location, empty snapshot content — makes the push
return with its own message and an empty network trace, and the six
messages are pairwise distinct. -/
theorem claim_C8_push_preconditions (env : SyncEnv) (u c : HttpResp)
    (p : Option String → HttpResp) :
    (tokenFalsy env.github_token = true →
      commit_backup_api env u c p = ⟨[.errTokenNotSet], []⟩) ∧
    (tokenFalsy env.github_token = false →
     tokenStartOk (env.github_token.getD "") = false →
      commit_backup_api env u c p = ⟨[.errTokenBadStart], []⟩) ∧
    (tokenFalsy env.github_token = false →
     tokenStartOk (env.github_token.getD "") = true →
     env.repo_url.isEmpty = true →
      commit_backup_api env u c p = ⟨[.errRepoUrlNotSet], []⟩) ∧
    (tokenFalsy env.github_token = false →
     tokenStartOk (env.github_token.getD "") = true →
     env.repo_url.isEmpty = false →
     env.backup_file = none →
      commit_backup_api env u c p = ⟨[.warnBackupFileMissing], []⟩) ∧
    (∀ content, tokenFalsy env.github_token = false →
     tokenStartOk (env.github_token.getD "") = true →
     env.repo_url.isEmpty = false →
     env.backup_file = some content →
     repoInfoFalsy (_parse_github_repo_info env.repo_url) = true →
      commit_backup_api env u c p = ⟨[.errInvalidRepoUrl env.repo_url], []⟩) ∧
    (∀ content, tokenFalsy env.github_token = false →
     tokenStartOk (env.github_token.getD "") = true →
     env.repo_url.isEmpty = false →
     env.backup_file = some content →
     repoInfoFalsy (_parse_github_repo_info env.repo_url) = false →
     pyAllSpace content = true →
      commit_backup_api env u c p = ⟨[.warnBackupEmptyCommit], []⟩) ∧
    ([StMsg.errTokenNotSet, .errTokenBadStart, .errRepoUrlNotSet,
      .warnBackupFileMissing, .errInvalidRepoUrl env.repo_url,
      .warnBackupEmptyCommit] : List StMsg).Nodup := by
  refine ⟨?_, ?_, ?_, ?_, ?_, ?_, by simp⟩
  · intro g1
    simp [commit_backup_api, g1]
  · intro g1 g2
    simp [commit_backup_api, g1, g2]
  · intro g1 g2 g3
    simp [commit_backup_api, g1, g2, g3]
  · intro g1 g2 g3 g4
    simp [commit_backup_api, g1, g2, g3, g4]
  · intro content g1 g2 g3 g4 g5
    simp [commit_backup_api, g1, g2, g3, g4, g5]
  · intro content g1 g2 g3 g4 g5 g6
    simp [commit_backup_api, g1, g2, g3, g4, g5, g6]

/-- C8 witness: with no credential configured, the push reports only the
missing-token message and issues no network request. -/
theorem claim_C8_witness :
    commit_backup_api ⟨none, "https://github.com/o/r.git", some "data"⟩
        ⟨200, "OK", none, none, none⟩ ⟨200, "OK", none, none, none⟩
        (fun _ => ⟨201, "Created", none, none, none⟩) =
      ⟨[.errTokenNotSet], []⟩ :=
  (claim_C8_push_preconditions ⟨none, "https://github.com/o/r.git", some "data"⟩
    ⟨200, "OK", none, none, none⟩ ⟨200, "OK", none, none, none⟩
    (fun _ => ⟨201, "Created", none, none, none⟩)).1 rfl

end Dristee
